import Mathlib

/-!
Verification of the MultiSelectChannels forwarding pipeline.

Shallow embedding of `src/core/queue_manager.py`, `src/core/deduplication.py`,
`src/core/message_processor.py`, `src/core/forwarding_engine.py` and the
database models of `src/database/models.py`.  Time is modelled as an abstract
integer clock (seconds); Python dicts are modelled as insertion-ordered
association lists; the Redis sorted sets are modelled as lists of
(member, score) pairs with member identity given by their JSON serialization,
mirroring Redis semantics (members are unique byte strings; ZPOPMAX breaks
score ties by taking the lexicographically greatest member).
-/

namespace MSC

/-! ### Python values and dicts (insertion ordered, as in CPython) -/

inductive PyVal where
  | pstr (s : String)
  | pint (n : Int)
  | pbool (b : Bool)
  | plist (xs : List PyVal)
  | pdict (kvs : List (String × PyVal))

abbrev PyDict := List (String × PyVal)

/-- `d[k] = v` for a Python dict: updates in place (keeping the key's
position) when the key exists, appends otherwise. -/
def dictSet (kvs : PyDict) (k : String) (v : PyVal) : PyDict :=
  match kvs with
  | [] => [(k, v)]
  | (k0, v0) :: rest =>
    if k0 = k then (k0, v) :: rest else (k0, v0) :: dictSet rest k v

/-- `d.get(k)` for a Python dict. -/
def dictGet (kvs : PyDict) (k : String) : Option PyVal :=
  match kvs with
  | [] => none
  | (k0, v0) :: rest => if k0 = k then some v0 else dictGet rest k

/-- `d.get(k, default)` with an integer default (`message_data.get('attempts', 0)`). -/
def dictGetInt (kvs : PyDict) (k : String) (dft : Int) : Int :=
  match dictGet kvs k with
  | some (.pint n) => n
  | _ => dft

/-- `d.get(k)` restricted to string values (used for `content_hash`). -/
def dictGetStr (kvs : PyDict) (k : String) : Option String :=
  match dictGet kvs k with
  | some (.pstr s) => some s
  | _ => none

/-! ### json.dumps (default separators `", "` and `": "`).
Only `"` and `\` are escaped; the values serialized by the pipeline contain
no control characters, so the remaining JSON escapes never fire. -/

def escChar (c : Char) : String :=
  if c = '"' then "\\\"" else if c = '\\' then "\\\\" else String.mk [c]

def escapeJson (s : String) : String :=
  String.join (s.data.map escChar)

mutual

def dumpsV : PyVal → String
  | .pstr s => "\"" ++ escapeJson s ++ "\""
  | .pint n => toString n
  | .pbool b => if b then "true" else "false"
  | .plist xs => "[" ++ String.intercalate ", " (dumpsL xs) ++ "]"
  | .pdict kvs => "\x7b" ++ String.intercalate ", " (dumpsKV kvs) ++ "\x7d"

def dumpsL : List PyVal → List String
  | [] => []
  | v :: vs => dumpsV v :: dumpsL vs

def dumpsKV : List (String × PyVal) → List String
  | [] => []
  | (k, v) :: kvs => ("\"" ++ escapeJson k ++ "\": " ++ dumpsV v) :: dumpsKV kvs

end

/-- Serialization of a whole queue item (`json.dumps(message_data)`). -/
def dumpsD (kvs : PyDict) : String := dumpsV (.pdict kvs)

/-- Byte-wise (here: character-wise) lexicographic strict order, as used by
Redis to order equal-score members of a sorted set (memcmp order; all the
serialized items are ASCII). -/
def chLtB : List Char → List Char → Bool
  | [], [] => false
  | [], _ :: _ => true
  | _ :: _, [] => false
  | a :: as, b :: bs =>
    if a < b then true else if b < a then false else chLtB as bs

def strLtB (a b : String) : Bool := chLtB a.data b.data

/-- Models `datetime.utcnow().isoformat()` under the abstract integer clock:
an injective, order-reflecting rendering is all the pipeline relies on. -/
def iso (t : Nat) : String := toString t

/-! ### SHA-256 (FIPS 180-4), on naturals reduced mod `2^32`.
Used by `MessageProcessor._generate_content_hash` (`hashlib.sha256(...).hexdigest()`). -/

def M32 : Nat := 4294967296

def add32 (a b : Nat) : Nat := (a + b) % M32

def rotr (n x : Nat) : Nat := (x / 2 ^ n + x % 2 ^ n * 2 ^ (32 - n)) % M32

def shr (n x : Nat) : Nat := x / 2 ^ n

def compl32 (x : Nat) : Nat := M32 - 1 - x % M32

def sig0 (x : Nat) : Nat := rotr 7 x ^^^ rotr 18 x ^^^ shr 3 x

def sig1 (x : Nat) : Nat := rotr 17 x ^^^ rotr 19 x ^^^ shr 10 x

def bigSig0 (x : Nat) : Nat := rotr 2 x ^^^ rotr 13 x ^^^ rotr 22 x

def bigSig1 (x : Nat) : Nat := rotr 6 x ^^^ rotr 11 x ^^^ rotr 25 x

def chOf (x y z : Nat) : Nat := x &&& y ^^^ compl32 x &&& z

def majOf (x y z : Nat) : Nat := x &&& y ^^^ x &&& z ^^^ y &&& z

def shaK : List Nat :=
  [1116352408, 1899447441, 3049323471, 3921009573, 961987163,
   1508970993, 2453635748, 2870763221, 3624381080, 310598401,
   607225278, 1426881987, 1925078388, 2162078206, 2614888103,
   3248222580, 3835390401, 4022224774, 264347078, 604807628,
   770255983, 1249150122, 1555081692, 1996064986, 2554220882,
   2821834349, 2952996808, 3210313671, 3336571891, 3584528711,
   113926993, 338241895, 666307205, 773529912, 1294757372,
   1396182291, 1695183700, 1986661051, 2177026350, 2456956037,
   2730485921, 2820302411, 3259730800, 3345764771, 3516065817,
   3600352804, 4094571909, 275423344, 430227734, 506948616,
   659060556, 883997877, 958139571, 1322822218, 1537002063,
   1747873779, 1955562222, 2024104815, 2227730452, 2361852424,
   2428436474, 2756734187, 3204031479, 3329325298]

structure Hash8 where
  a : Nat
  b : Nat
  c : Nat
  d : Nat
  e : Nat
  f : Nat
  g : Nat
  h : Nat
deriving DecidableEq

def shaH0 : Hash8 :=
  ⟨1779033703, 3144134277, 1013904242, 2773480762,
   1359893119, 2600822924, 528734635, 1541459225⟩

/-- Next word of the message schedule, from the words produced so far. -/
def nextW (w : List Nat) : Nat :=
  let n := w.length
  add32 (add32 (w.getD (n - 16) 0) (sig0 (w.getD (n - 15) 0)))
        (add32 (w.getD (n - 7) 0) (sig1 (w.getD (n - 2) 0)))

/-- Extend the 16 chunk words to the 64 schedule words. -/
def extendW (w : List Nat) : List Nat :=
  if h : w.length < 64 then extendW (w ++ [nextW w]) else w
termination_by 64 - w.length
decreasing_by simp; omega

def roundStep (st : Hash8) (kw : Nat × Nat) : Hash8 :=
  let t1 := add32 st.h (add32 (bigSig1 st.e) (add32 (chOf st.e st.f st.g) (add32 kw.1 kw.2)))
  let t2 := add32 (bigSig0 st.a) (majOf st.a st.b st.c)
  ⟨add32 t1 t2, st.a, st.b, st.c, add32 st.d t1, st.e, st.f, st.g⟩

def compressChunk (H : Hash8) (chunk : List Nat) : Hash8 :=
  let st := (List.zip shaK (extendW chunk)).foldl roundStep H
  ⟨add32 H.a st.a, add32 H.b st.b, add32 H.c st.c, add32 H.d st.d,
   add32 H.e st.e, add32 H.f st.f, add32 H.g st.g, add32 H.h st.h⟩

/-- Big-endian 4-byte grouping of the padded byte stream into 32-bit words. -/
def toWords : List Nat → List Nat
  | b0 :: b1 :: b2 :: b3 :: rest =>
    (b0 * 2 ^ 24 + b1 * 2 ^ 16 + b2 * 2 ^ 8 + b3) :: toWords rest
  | _ => []

def lenBytes (n : Nat) : List Nat :=
  [n / 2 ^ 56 % 256, n / 2 ^ 48 % 256, n / 2 ^ 40 % 256, n / 2 ^ 32 % 256,
   n / 2 ^ 24 % 256, n / 2 ^ 16 % 256, n / 2 ^ 8 % 256, n % 256]

def padBytes (msg : List Nat) : List Nat :=
  let L := msg.length
  let z := (119 - L % 64) % 64
  msg ++ [128] ++ List.replicate z 0 ++ lenBytes (8 * L)

def chunks64 (l : List Nat) : List (List Nat) :=
  if h : l = [] then [] else (l.take 64) :: chunks64 (l.drop 64)
termination_by l.length
decreasing_by
  simp
  exact List.length_pos.mpr h

def sha256digest (msg : List Nat) : Hash8 :=
  ((chunks64 (padBytes msg)).map toWords).foldl compressChunk shaH0

def hexDigit (n : Nat) : Char :=
  if n < 10 then Char.ofNat (48 + n) else Char.ofNat (87 + n)

def wordHex (w : Nat) : String :=
  String.mk [hexDigit (w / 2 ^ 28 % 16), hexDigit (w / 2 ^ 24 % 16),
             hexDigit (w / 2 ^ 20 % 16), hexDigit (w / 2 ^ 16 % 16),
             hexDigit (w / 2 ^ 12 % 16), hexDigit (w / 2 ^ 8 % 16),
             hexDigit (w / 2 ^ 4 % 16), hexDigit (w % 16)]

def utf8Bytes (s : String) : List Nat :=
  s.toUTF8.toList.map (fun b => b.toNat)

/-- `hashlib.sha256(s.encode('utf-8')).hexdigest()`. -/
def sha256hex (s : String) : String :=
  let d := sha256digest (utf8Bytes s)
  wordHex d.a ++ wordHex d.b ++ wordHex d.c ++ wordHex d.d ++
  wordHex d.e ++ wordHex d.f ++ wordHex d.g ++ wordHex d.h

/-! ### MessageProcessor._generate_content_hash (src/core/message_processor.py) -/

/-- Python `str()` of the scalar values that reach the content hash; the
container cases are rendered like their JSON form (never hit by the
pipeline, which stores text as `str`, the media flag as `bool` and the
author id as `int`/`str`). -/
def pyStr : PyVal → String
  | .pstr s => s
  | .pint n => toString n
  | .pbool b => if b then "True" else "False"
  | v => dumpsV v

def hashPartText (msg : PyDict) : String :=
  pyStr ((dictGet msg "text").getD (.pstr ""))

def hashPartMedia (msg : PyDict) : String :=
  pyStr ((dictGet msg "has_media").getD (.pbool false))

def hashPartFrom (msg : PyDict) : String :=
  pyStr ((dictGet msg "from_id").getD (.pstr ""))

/-- `'|'.join(content_parts)` of `_generate_content_hash`. -/
def contentHashInput (msg : PyDict) : String :=
  hashPartText msg ++ "|" ++ hashPartMedia msg ++ "|" ++ hashPartFrom msg

/-- `MessageProcessor._generate_content_hash`. -/
def generate_content_hash (msg : PyDict) : String :=
  sha256hex (contentHashInput msg)

/-- Modelled from the spec's words (§4.1 / C10), for comparison with
`contentHashInput`: the canonical concatenation "missing fields treated as
empty string" would contribute the empty string for every absent field. -/
def contentHashInputSpec (msg : PyDict) : String :=
  (match dictGet msg "text" with | some v => pyStr v | none => "") ++ "|" ++
  (match dictGet msg "has_media" with | some v => pyStr v | none => "") ++ "|" ++
  (match dictGet msg "from_id" with | some v => pyStr v | none => "")

/-! ### QueueManager (src/core/queue_manager.py)

The Redis state: `forwarding:messages` is a list (`lpush`/`brpop`, so the
head of our list is the `lpush` side and `brpop` takes the last element);
`forwarding:messages:priority`, `forwarding:retry` and
`forwarding:flood_wait` are sorted sets of (member, score);
`forwarding:failed` is a list.  Members are stored here as the dict they
serialize from; member identity and the ZPOPMAX tie-break use
`dumpsD` (`json.loads (json.dumps x) = x` for the values involved). -/

abbrev ZEntry := PyDict × Int

structure QState where
  mainList : List PyDict
  prioZ : List ZEntry
  retryZ : List ZEntry
  floodZ : List ZEntry
  failedList : List PyDict

def QState.empty : QState := ⟨[], [], [], [], []⟩

/-- `ZADD`: update the score in place when the member exists, append otherwise. -/
def zadd (l : List ZEntry) (m : PyDict) (sc : Int) : List ZEntry :=
  if l.any (fun e => dumpsD e.1 == dumpsD m) then
    l.map (fun e => if dumpsD e.1 == dumpsD m then (m, sc) else e)
  else l ++ [(m, sc)]

/-- `ZREM` of one member (members of a Redis zset are unique). -/
def zrem (l : List ZEntry) (m : PyDict) : List ZEntry :=
  match l with
  | [] => []
  | e :: es => if dumpsD e.1 == dumpsD m then es else e :: zrem es m

/-- Redis entry order: by score, ties by lexicographic member order. -/
def entryLtB (a b : ZEntry) : Bool :=
  a.2 < b.2 || (a.2 == b.2 && strLtB (dumpsD a.1) (dumpsD b.1))

def entryMax (a b : ZEntry) : ZEntry := if entryLtB a b then b else a

/-- `ZPOPMAX`: pop the greatest entry in (score, member) order. -/
def zpopmax (l : List ZEntry) : Option (ZEntry × List ZEntry) :=
  match l with
  | [] => none
  | e :: es =>
    let m := es.foldl entryMax e
    some (m, zrem l m.1)

/-- `ZRANGEBYSCORE key lo hi` (ascending (score, member) order). -/
def zsortIns (e : ZEntry) : List ZEntry → List ZEntry
  | [] => [e]
  | x :: xs => if entryLtB e x then e :: x :: xs else x :: zsortIns e xs

def zsort : List ZEntry → List ZEntry
  | [] => []
  | e :: es => zsortIns e (zsort es)

def zrangebyscore (l : List ZEntry) (lo hi : Int) : List ZEntry :=
  zsort (l.filter (fun e => lo ≤ e.2 && e.2 ≤ hi))

/-- `BRPOP` (ignoring the timeout: the worker already treats `none` as
no work): pops from the tail, i.e. the oldest `lpush`ed element. -/
def rpop : List PyDict → Option (PyDict × List PyDict)
  | [] => none
  | [x] => some (x, [])
  | x :: y :: xs =>
    match rpop (y :: xs) with
    | some (m, rest) => some (m, x :: rest)
    | none => none

/-- The metadata writes of `enqueue_message` (lines 96-98):
`enqueued_at`, `priority` and `attempts` are overwritten in that order. -/
def stampEnqueue (now : Nat) (priority : Int) (msg : PyDict) : PyDict :=
  dictSet (dictSet (dictSet msg "enqueued_at" (.pstr (iso now)))
      "priority" (.pint priority))
    "attempts" (.pint 0)

/-- `QueueManager.enqueue_message` (priority defaults to 0). -/
def enqueue_message (now : Nat) (msg : PyDict) (priority : Int) (s : QState) : QState :=
  let m := stampEnqueue now priority msg
  if 0 < priority then { s with prioZ := zadd s.prioZ m priority }
  else { s with mainList := m :: s.mainList }

/-- `QueueManager.dequeue_message`: the priority sorted set is drained
first (ZPOPMAX), then the plain list (BRPOP). -/
def dequeue_message (s : QState) : Option PyDict × QState :=
  match zpopmax s.prioZ with
  | some (e, rest) => (some e.1, { s with prioZ := rest })
  | none =>
    match rpop s.mainList with
    | some (m, rest) => (some m, { s with mainList := rest })
    | none => (none, s)

/-- The metadata writes of `enqueue_retry` (lines 147-148). -/
def stampRetry (now delay : Nat) (msg : PyDict) : PyDict :=
  dictSet (dictSet msg "attempts" (.pint (dictGetInt msg "attempts" 0 + 1)))
    "retry_after" (.pstr (iso (now + delay)))

/-- `QueueManager.enqueue_retry`: score is `now + delay_seconds`. -/
def enqueue_retry (now : Nat) (msg : PyDict) (delay : Nat) (s : QState) : QState :=
  { s with retryZ := zadd s.retryZ (stampRetry now delay msg) (now + delay) }

/-- The metadata writes of `enqueue_flood_wait` (lines 169-170); the
attempt counter is not touched. -/
def stampFlood (now wait : Nat) (msg : PyDict) : PyDict :=
  dictSet (dictSet msg "flood_wait_until" (.pstr (iso (now + wait))))
    "flood_wait_duration" (.pint wait)

/-- `QueueManager.enqueue_flood_wait`: score is `now + wait_seconds`. -/
def enqueue_flood_wait (now : Nat) (msg : PyDict) (wait : Nat) (s : QState) : QState :=
  { s with floodZ := zadd s.floodZ (stampFlood now wait msg) (now + wait) }

/-- `QueueManager.enqueue_failed`. -/
def enqueue_failed (now : Nat) (msg : PyDict) (err : String) (s : QState) : QState :=
  let m := dictSet (dictSet (dictSet msg "failed_at" (.pstr (iso now)))
      "final_error" (.pstr err))
    "final_attempts" (.pint (dictGetInt msg "attempts" 0))
  { s with failedList := m :: s.failedList }

/-- The body of the `_process_retry_queue` loop over one fetched entry:
`ZREM` it from the retry zset, then `enqueue_message` it (priority 0). -/
def retryMove (now : Nat) (st : QState) (e : ZEntry) : QState :=
  enqueue_message now e.1 0 { st with retryZ := zrem st.retryZ e.1 }

/-- One iteration of the `_process_retry_queue` sweeper loop: fetch every
entry whose score is in `[0, now]`, and for each one remove it from the
retry zset and re-enqueue it (priority 0) into the main queue. -/
def process_retry_queue_step (now : Nat) (s : QState) : QState :=
  (zrangebyscore s.retryZ 0 now).foldl (retryMove now) s

/-- The body of the `_process_flood_wait_queue` loop over one entry. -/
def floodMove (now : Nat) (st : QState) (e : ZEntry) : QState :=
  enqueue_message now e.1 0 { st with floodZ := zrem st.floodZ e.1 }

/-- One iteration of the `_process_flood_wait_queue` sweeper loop. -/
def process_flood_wait_queue_step (now : Nat) (s : QState) : QState :=
  (zrangebyscore s.floodZ 0 now).foldl (floodMove now) s

/-! ### DeduplicationService (src/core/deduplication.py) and its backing
table `deduplication_cache` (src/database/models.py) -/

structure DedupEntry where
  content_hash : String
  source_channel_id : Int
  source_message_id : Int
  created_at : Nat
deriving DecidableEq

/-- `content_hash` carries a UNIQUE constraint, so the cache holds at most
one entry per hash and `scalar_one_or_none` is a `find?`. -/
abbrev DedupCache := List DedupEntry

/-- `DeduplicationService._is_cache_valid`: `utcnow() < created_at + ttl hours`. -/
def is_cache_valid (ttlHours now createdAt : Nat) : Bool :=
  now < createdAt + ttlHours * 3600

structure DedupResult where
  dup : Bool
  cache : DedupCache
deriving DecidableEq

/-- `DeduplicationService.is_duplicate`.  `reachable = false` models the
backing store raising on the lookup: the whole `try` block is replaced by
the `except` handler, which logs and returns `False`. -/
def is_duplicate (ttlHours now : Nat) (reachable : Bool) (cache : DedupCache)
    (message_data : PyDict) : DedupResult :=
  match dictGetStr message_data "content_hash" with
  | none => ⟨false, cache⟩
  | some h =>
    if h = "" then ⟨false, cache⟩
    else if !reachable then ⟨false, cache⟩
    else
      match cache.find? (fun e => e.content_hash == h) with
      | some e =>
        if is_cache_valid ttlHours now e.created_at then ⟨true, cache⟩
        else ⟨false, cache.erase e⟩
      | none => ⟨false, cache⟩

/-- `DeduplicationService.mark_as_processed`: an INSERT ... ON CONFLICT
(content_hash) DO NOTHING.  The `if not all([...])` guard drops falsy
fields (missing keys, empty hash, zero ids). -/
def mark_as_processed (now : Nat) (cache : DedupCache) (message_data : PyDict) :
    DedupCache :=
  match dictGetStr message_data "content_hash",
        dictGet message_data "source_channel_id",
        dictGet message_data "message_id" with
  | some h, some (.pint cid), some (.pint mid) =>
    if h = "" || cid = 0 || mid = 0 then cache
    else if cache.any (fun e => e.content_hash == h) then cache
    else cache ++ [⟨h, cid, mid, now⟩]
  | _, _, _ => cache

/-! ### Database models (src/database/models.py) -/

inductive AccessType where
  | bot
  | user
deriving DecidableEq

def AccessType.value : AccessType → String
  | .bot => "bot"
  | .user => "user"

inductive ForwardingMode where
  | fwd
  | copy
deriving DecidableEq

def ForwardingMode.value : ForwardingMode → String
  | .fwd => "forward"
  | .copy => "copy"

inductive MessageStatus where
  | pending
  | processing
  | success
  | failed
  | retrying
deriving DecidableEq

structure Channel where
  id : Nat
  telegram_id : Int
  access_type : AccessType
  is_active : Bool
deriving DecidableEq

structure ForwardingMapping where
  id : Nat
  source_channel_id : Nat
  dest_channel_id : Nat
  mode : ForwardingMode
  enabled : Bool
deriving DecidableEq

structure MessageLog where
  id : Nat
  source_channel_id : Nat
  source_message_id : Int
  dest_channel_ids : List Nat
  status : MessageStatus
  attempts : Nat
  last_error : Option String
  forwarded_message_ids : Option (List (String × Int))
  processing_started_at : Option Nat
  processing_completed_at : Option Nat
deriving DecidableEq

structure DbState where
  channels : List Channel
  mappings : List ForwardingMapping
  logs : List MessageLog
  nextLogId : Nat
deriving DecidableEq

def channelById (db : DbState) (cid : Nat) : Option Channel :=
  db.channels.find? (fun c => c.id == cid)

def channelByTid (db : DbState) (tid : Int) : Option Channel :=
  db.channels.find? (fun c => c.telegram_id == tid)

/-- `messages_log` rows never repeat a `(source_channel_id,
source_message_id)` pair (`UniqueConstraint 'unique_source_message'`). -/
def logsPairUnique : List MessageLog → Bool
  | [] => true
  | l :: ls =>
    ls.all (fun l2 =>
      !(l.source_channel_id == l2.source_channel_id &&
        l.source_message_id == l2.source_message_id)) &&
    logsPairUnique ls

/-! ### ForwardingEngine (src/core/forwarding_engine.py) -/

/-- `ForwardingEngine._get_forwarding_mappings`: mappings joined to their
source channel, filtered on `Channel.telegram_id == source_channel_id`,
`ForwardingMapping.enabled == True` and (source) `Channel.is_active == True`.
The destination channel is loaded but not filtered on. -/
def get_forwarding_mappings (db : DbState) (source_channel_id : Int) :
    List ForwardingMapping :=
  db.mappings.filter (fun m =>
    m.enabled &&
    match channelById db m.source_channel_id with
    | some c => c.telegram_id == source_channel_id && c.is_active
    | none => false)

/-- `ForwardingEngine._create_message_log`: looks the source channel up by
telegram id (`scalar_one`), then inserts a PENDING row; the insert hits the
`unique_source_message` constraint when the pair already exists. -/
def create_message_log (db : DbState) (source_channel_id : Int)
    (message_id : Int) (dest_channel_ids : List Nat) (now : Nat) :
    Except String (MessageLog × DbState) :=
  match channelByTid db source_channel_id with
  | none => .error "NoResultFound"
  | some c =>
    if db.logs.any (fun l =>
        l.source_channel_id == c.id && l.source_message_id == message_id) then
      .error "UniqueViolation: unique_source_message"
    else
      let log : MessageLog :=
        { id := db.nextLogId
          source_channel_id := c.id
          source_message_id := message_id
          dest_channel_ids := dest_channel_ids
          status := .pending
          attempts := 0
          last_error := none
          forwarded_message_ids := none
          processing_started_at := some now
          processing_completed_at := none }
      .ok (log, { db with logs := db.logs ++ [log], nextLogId := db.nextLogId + 1 })

/-- Update one log row in place (the row is known to exist on the paths
that use this; a missing row would raise out of the surrounding handler
leaving the table unchanged, which coincides with the no-op). -/
def updateLog (db : DbState) (logId : Nat) (f : MessageLog → MessageLog) : DbState :=
  { db with logs := db.logs.map (fun l => if l.id == logId then f l else l) }

/-- `ForwardingEngine._update_message_log_status`. -/
def update_message_log_status (db : DbState) (logId : Nat) (st : MessageStatus) :
    DbState :=
  updateLog db logId (fun l => { l with status := st })

/-- `ForwardingEngine._update_message_log_success`. -/
def update_message_log_success (db : DbState) (logId : Nat)
    (fwd : List (String × Int)) (now : Nat) : DbState :=
  updateLog db logId (fun l =>
    { l with status := .success, forwarded_message_ids := some fwd,
             processing_completed_at := some now })

/-- `ForwardingEngine._update_message_log_partial_success`. -/
def update_message_log_partial_success (db : DbState) (logId : Nat)
    (fwd : List (String × Int)) (now : Nat) : DbState :=
  updateLog db logId (fun l =>
    { l with status := .failed, forwarded_message_ids := some fwd,
             last_error := some "Partial success - some destinations failed",
             processing_completed_at := some now })

/-- `ForwardingEngine._update_message_log_error`. -/
def update_message_log_error (db : DbState) (logId : Nat) (err : String)
    (now : Nat) : DbState :=
  updateLog db logId (fun l =>
    { l with status := .failed, last_error := some err,
             attempts := l.attempts + 1, processing_completed_at := some now })

structure World where
  db : DbState
  cache : DedupCache
  q : QState

/-- The per-mapping dict of the queue item built in `process_new_message`
(lines 100-105), reading the loaded source/destination relationship rows. -/
def mappingSnapshot (db : DbState) (m : ForwardingMapping) : Option PyDict :=
  match channelById db m.source_channel_id, channelById db m.dest_channel_id with
  | some sc, some dc =>
    some [("dest_channel_id", .pint m.dest_channel_id),
          ("mode", .pstr m.mode.value),
          ("source_access", .pstr sc.access_type.value),
          ("dest_access", .pstr dc.access_type.value)]
  | _, _ => none

def optList : List (Option α) → Option (List α)
  | [] => some []
  | none :: _ => none
  | some x :: xs => (optList xs).map (fun l => x :: l)

/-- `ForwardingEngine.process_new_message`.  The body runs inside a
`try/except` that logs and swallows every exception, so a failing step
keeps the effects of the completed earlier steps and does nothing more.
Note that no step writes the fingerprint to the deduplication cache:
`mark_as_processed` is never called. -/
def process_new_message (ttlHours now : Nat) (reachable : Bool) (w : World)
    (source_channel_id message_id : Int) (message_data : PyDict) : World :=
  let r := is_duplicate ttlHours now reachable w.cache message_data
  let w1 : World := { w with cache := r.cache }
  if r.dup then w1
  else
    let mappings := get_forwarding_mappings w1.db source_channel_id
    if mappings.isEmpty then w1
    else
      let destIds := mappings.map (fun m => m.dest_channel_id)
      match create_message_log w1.db source_channel_id message_id destIds now with
      | .error _ => w1
      | .ok (log, db1) =>
        match optList (mappings.map (mappingSnapshot db1)) with
        | none => { w1 with db := db1 }
        | some snaps =>
          let queue_item : PyDict :=
            [("message_log_id", .pint log.id),
             ("source_channel_id", .pint source_channel_id),
             ("message_id", .pint message_id),
             ("mappings", .plist (snaps.map .pdict)),
             ("message_data", .pdict message_data),
             ("created_at", .pstr (iso now))]
          { w1 with db := db1, q := enqueue_message now queue_item 0 w1.q }

/-- Outcome of one transport call as seen below `ClientFactory`: the client
wrappers catch `FloodWaitError` (logging the wait) and every other
exception, returning `None` in both cases. -/
inductive TransportResult where
  | ok (message_id : Int)
  | floodWait (seconds : Nat)
  | failure (e : String)
deriving DecidableEq

/-- `ForwardingEngine._forward_single_message` composed with the client
calls: only a successful send yields a message id; a rate-limit signal is
indistinguishable from any other failure. -/
def forward_single_message (r : TransportResult) : Option Int :=
  match r with
  | .ok mid => some mid
  | .floodWait _ => none
  | .failure _ => none

/-- The mapping snapshots of a queue item, as read back by the worker. -/
def itemMappings (item : PyDict) : List PyDict :=
  match dictGet item "mappings" with
  | some (.plist xs) => xs.filterMap (fun v => match v with
      | .pdict d => some d
      | _ => none)
  | _ => []

/-- `ForwardingEngine._process_queued_message` with the per-destination
transport outcomes supplied by `deliver`.  The record is moved to
PROCESSING, each mapping is attempted, and the log is updated with either
full success or the partial-failure FAILED state.  Nothing on this path
consults the attempt counter, classifies rate limits, or touches the
retry / flood-wait / failed queues. -/
def process_queued_message (now : Nat) (deliver : Int → TransportResult)
    (w : World) (item : PyDict) : World :=
  let logId := (dictGetInt item "message_log_id" 0).toNat
  let db1 := update_message_log_status w.db logId .processing
  let results := (itemMappings item).map (fun m =>
    let dest := dictGetInt m "dest_channel_id" 0
    (dest, forward_single_message (deliver dest)))
  let fwd : List (String × Int) :=
    results.filterMap (fun p => p.2.map (fun mid => (toString p.1, mid)))
  let allOk := results.all (fun p => p.2.isSome)
  if allOk then { w with db := update_message_log_success db1 logId fwd now }
  else { w with db := update_message_log_partial_success db1 logId fwd now }

/-! ## Supporting lemmas -/

theorem dictGet_dictSet_self (kvs : PyDict) (k : String) (v : PyVal) :
    dictGet (dictSet kvs k v) k = some v := by
  induction kvs with
  | nil => simp [dictSet, dictGet]
  | cons kv rest ih =>
    obtain ⟨k0, v0⟩ := kv
    by_cases h : k0 = k
    · simp [dictSet, dictGet, h]
    · simp [dictSet, dictGet, h, ih]

theorem dictGet_dictSet_ne (kvs : PyDict) (k k' : String) (v : PyVal)
    (h : k' ≠ k) : dictGet (dictSet kvs k v) k' = dictGet kvs k' := by
  induction kvs with
  | nil =>
    simp only [dictSet, dictGet]
    rw [if_neg (fun hh => h hh.symm)]
  | cons kv rest ih =>
    obtain ⟨k0, v0⟩ := kv
    by_cases h0 : k0 = k
    · subst h0
      simp only [dictSet, if_pos rfl, dictGet]
      rw [if_neg (fun hh : k0 = k' => h hh.symm),
          if_neg (fun hh : k0 = k' => h hh.symm)]
    · simp only [dictSet, if_neg h0, dictGet]
      by_cases h1 : k0 = k'
      · rw [if_pos h1, if_pos h1]
      · rw [if_neg h1, if_neg h1, ih]

theorem wordHex_length (w : Nat) : (wordHex w).length = 8 := rfl

theorem sha256hex_length (s : String) : (sha256hex s).length = 64 := by
  simp [sha256hex, String.length_append, wordHex_length]

theorem chLtB_irrefl (l : List Char) : chLtB l l = false := by
  induction l with
  | nil => rfl
  | cons a as ih => simp [chLtB, ih]

theorem strLtB_ne {a b : String} (h : strLtB a b = true) : a ≠ b := by
  intro he
  subst he
  rw [strLtB, chLtB_irrefl] at h
  cases h

theorem retryMove_retryZ (now : Nat) (st : QState) (e : ZEntry) :
    (retryMove now st e).retryZ = zrem st.retryZ e.1 := rfl

theorem retryMove_mainList (now : Nat) (st : QState) (e : ZEntry) :
    (retryMove now st e).mainList = stampEnqueue now 0 e.1 :: st.mainList := rfl

theorem zrem_sublist (l : List ZEntry) (m : PyDict) : List.Sublist (zrem l m) l := by
  induction l with
  | nil => exact List.Sublist.refl _
  | cons e es ih =>
    simp only [zrem]
    split
    · exact List.sublist_cons_self e es
    · exact ih.cons₂ e

theorem mem_zrem_of_ne {l : List ZEntry} {m : PyDict} {e : ZEntry}
    (he : e ∈ l) (hne : dumpsD e.1 ≠ dumpsD m) : e ∈ zrem l m := by
  induction l with
  | nil => cases he
  | cons a as ih =>
    by_cases hc : dumpsD a.1 = dumpsD m
    · have hb : (dumpsD a.1 == dumpsD m) = true := beq_iff_eq.mpr hc
      simp only [zrem, hb, if_true]
      rcases List.mem_cons.mp he with h | h
      · exact absurd (h ▸ hc) hne
      · exact h
    · have hb : (dumpsD a.1 == dumpsD m) = false := beq_eq_false_iff_ne.mpr hc
      simp only [zrem, hb, Bool.false_eq_true, if_false]
      rcases List.mem_cons.mp he with h | h
      · exact h ▸ List.mem_cons_self _ _
      · exact List.mem_cons_of_mem _ (ih h)

theorem zrem_not_mem_member {l : List ZEntry} {m : PyDict}
    (hnd : (l.map (fun e => dumpsD e.1)).Nodup) :
    ∀ e' ∈ zrem l m, dumpsD e'.1 = dumpsD m → False := by
  induction l with
  | nil => intro e' h; cases h
  | cons a as ih =>
    simp only [List.map_cons, List.nodup_cons] at hnd
    obtain ⟨hna, hnd'⟩ := hnd
    by_cases hc : dumpsD a.1 = dumpsD m
    · have hb : (dumpsD a.1 == dumpsD m) = true := beq_iff_eq.mpr hc
      simp only [zrem, hb, if_true]
      intro e' he' heq
      exact hna ((heq.trans hc.symm) ▸ List.mem_map_of_mem _ he')
    · have hb : (dumpsD a.1 == dumpsD m) = false := beq_eq_false_iff_ne.mpr hc
      simp only [zrem, hb, Bool.false_eq_true, if_false]
      intro e' he' heq
      rcases List.mem_cons.mp he' with h | h
      · exact hc (h ▸ heq)
      · exact ih hnd' e' h heq

theorem zadd_mem (l : List ZEntry) (m : PyDict) (sc : Int) :
    (m, sc) ∈ zadd l m sc := by
  unfold zadd
  split
  · next hany =>
    rw [List.any_eq_true] at hany
    obtain ⟨e, he, hd⟩ := hany
    refine List.mem_map.mpr ⟨e, he, ?_⟩
    rw [if_pos hd]
  · exact List.mem_append_right _ (List.mem_cons_self _ _)

theorem foldl_retryMove_retryZ_sublist (now : Nat) (l : List ZEntry)
    (st : QState) :
    List.Sublist ((l.foldl (retryMove now) st).retryZ) st.retryZ := by
  induction l generalizing st with
  | nil => exact List.Sublist.refl _
  | cons e es ih =>
    simp only [List.foldl_cons]
    refine (ih _).trans ?_
    rw [retryMove_retryZ]
    exact zrem_sublist _ _

theorem foldl_retryMove_mem_retryZ (now : Nat) (l : List ZEntry) (st : QState)
    (e : ZEntry) (he : e ∈ st.retryZ)
    (hl : ∀ e0 ∈ l, dumpsD e0.1 ≠ dumpsD e.1) :
    e ∈ (l.foldl (retryMove now) st).retryZ := by
  induction l generalizing st with
  | nil => exact he
  | cons a as ih =>
    simp only [List.foldl_cons]
    refine ih _ ?_ (fun e0 h => hl e0 (List.mem_cons_of_mem _ h))
    rw [retryMove_retryZ]
    exact mem_zrem_of_ne he (Ne.symm (hl a (List.mem_cons_self _ _)))

theorem foldl_retryMove_mainList (now : Nat) (l : List ZEntry) (st : QState) :
    ∀ m ∈ (l.foldl (retryMove now) st).mainList,
      m ∈ st.mainList ∨ ∃ e ∈ l, m = stampEnqueue now 0 e.1 := by
  induction l generalizing st with
  | nil => exact fun m hm => .inl hm
  | cons a as ih =>
    intro m hm
    simp only [List.foldl_cons] at hm
    rcases ih _ m hm with h | ⟨e, he, hm'⟩
    · rw [retryMove_mainList] at h
      rcases List.mem_cons.mp h with h' | h'
      · exact .inr ⟨a, List.mem_cons_self _ _, h'⟩
      · exact .inl h'
    · exact .inr ⟨e, List.mem_cons_of_mem _ he, hm'⟩

theorem mem_zsortIns {e' e : ZEntry} {l : List ZEntry} :
    e' ∈ zsortIns e l ↔ e' = e ∨ e' ∈ l := by
  induction l with
  | nil => simp [zsortIns]
  | cons a as ih =>
    simp only [zsortIns]
    split
    · simp [List.mem_cons]
    · simp only [List.mem_cons, ih]
      tauto

theorem mem_zsort {e : ZEntry} {l : List ZEntry} : e ∈ zsort l ↔ e ∈ l := by
  induction l with
  | nil => simp [zsort]
  | cons a as ih => simp [zsort, mem_zsortIns, ih]

theorem mem_zrangebyscore {e : ZEntry} {l : List ZEntry} {lo hi : Int} :
    e ∈ zrangebyscore l lo hi ↔ e ∈ l ∧ lo ≤ e.2 ∧ e.2 ≤ hi := by
  simp [zrangebyscore, mem_zsort, List.mem_filter]

/-! ## Claim C8 -/

/-- C8: if the deduplication backing store is unreachable (the lookup
raises), `is_duplicate` returns `False` (fail open, never a duplicate and
never a raised error) for every input message. -/
theorem c8_dedup_fail_open (ttlHours now : Nat) (cache : DedupCache)
    (msg : PyDict) : (is_duplicate ttlHours now false cache msg).dup = false := by
  unfold is_duplicate
  cases dictGetStr msg "content_hash" with
  | none => rfl
  | some h => by_cases hh : h = "" <;> simp [hh]

/-! ## Claim C6 -/

/-- C6: four items enqueued in order with priorities [0, 5, 0, 3] are
dequeued as: the priority-5 item, the priority-3 item, then the two
priority-0 items in their original relative order. -/
theorem c6_priority_dequeue_order :
    let i : Int → PyDict := fun n => [("message_log_id", .pint n)]
    let s := enqueue_message 3 (i 4) 3 (enqueue_message 2 (i 3) 0
      (enqueue_message 1 (i 2) 5 (enqueue_message 0 (i 1) 0 QState.empty)))
    let d1 := dequeue_message s
    let d2 := dequeue_message d1.2
    let d3 := dequeue_message d2.2
    let d4 := dequeue_message d3.2
    d1.1 = some (stampEnqueue 1 5 (i 2)) ∧
    d2.1 = some (stampEnqueue 3 3 (i 4)) ∧
    d3.1 = some (stampEnqueue 0 0 (i 1)) ∧
    d4.1 = some (stampEnqueue 2 0 (i 3)) ∧
    d4.2.mainList = [] ∧ d4.2.prioZ = [] :=
  ⟨rfl, rfl, rfl, rfl, rfl, rfl⟩

/-! ## Claim C5 -/

/-- C5 as stated is false: two items enqueued with the same positive
priority land in the priority sorted set, and ZPOPMAX returns the
lexicographically greater serialized member first — here the
second-enqueued item (message_log_id 2) — violating FIFO order. -/
theorem c5_counterexample :
    let a : PyDict := [("message_log_id", .pint 1)]
    let b : PyDict := [("message_log_id", .pint 2)]
    let s := enqueue_message 1 b 5 (enqueue_message 0 a 5 QState.empty)
    (dequeue_message s).1 = some (stampEnqueue 1 5 b) ∧
    dumpsD (stampEnqueue 1 5 b) ≠ dumpsD (stampEnqueue 0 5 a) :=
  ⟨rfl, by decide⟩

/-! ## Claim C3 -/

/-- C3 as stated is false on the code: `_get_forwarding_mappings` filters
only on the rule's `enabled` flag and the SOURCE channel's `is_active`;
here an enabled rule whose destination channel is inactive is returned. -/
theorem c3_counterexample :
    let db : DbState := ⟨[⟨1, 100, .user, true⟩, ⟨2, 200, .user, false⟩],
      [⟨1, 1, 2, .fwd, true⟩], [], 0⟩
    get_forwarding_mappings db 100 = [⟨1, 1, 2, .fwd, true⟩] ∧
    channelById db 2 = some ⟨2, 200, .user, false⟩ ∧
    (⟨1, 1, 2, .fwd, true⟩ : ForwardingMapping).dest_channel_id = 2 :=
  ⟨rfl, rfl, rfl⟩

/-- C3 amended: the resolver returns only rules that are enabled and whose
source endpoint matches the requested id and is active; the destination
endpoint's active flag is not consulted. -/
theorem c3_mappings_filter (db : DbState) (tid : Int) (m : ForwardingMapping)
    (hm : m ∈ get_forwarding_mappings db tid) :
    m.enabled = true ∧ ∃ c, channelById db m.source_channel_id = some c ∧
      c.telegram_id = tid ∧ c.is_active = true := by
  unfold get_forwarding_mappings at hm
  rw [List.mem_filter] at hm
  obtain ⟨-, hp⟩ := hm
  rw [Bool.and_eq_true] at hp
  obtain ⟨he, hc⟩ := hp
  refine ⟨he, ?_⟩
  cases hch : channelById db m.source_channel_id with
  | none => rw [hch] at hc; cases hc
  | some c =>
    rw [hch] at hc
    rw [Bool.and_eq_true] at hc
    exact ⟨c, rfl, by simpa using hc.1, hc.2⟩

theorem c3_witness :
    ((⟨1, 1, 2, .fwd, true⟩ : ForwardingMapping) ∈
      get_forwarding_mappings ⟨[⟨1, 100, .user, true⟩, ⟨2, 200, .user, false⟩],
        [⟨1, 1, 2, .fwd, true⟩], [], 0⟩ 100) ∧
    ((⟨1, 1, 2, .fwd, true⟩ : ForwardingMapping).enabled = true ∧
      ∃ c, channelById ⟨[⟨1, 100, .user, true⟩, ⟨2, 200, .user, false⟩],
          [⟨1, 1, 2, .fwd, true⟩], [], 0⟩
          (⟨1, 1, 2, .fwd, true⟩ : ForwardingMapping).source_channel_id = some c ∧
        c.telegram_id = 100 ∧ c.is_active = true) :=
  ⟨by decide, c3_mappings_filter _ _ _ (by decide)⟩

/-! ## Claim C10 -/

/-- C10 as stated is false: a message with no `has_media` key contributes
the string "False" (Python `str(False)`, the `.get` default) to the hashed
concatenation, not the empty string; the spec-mandated concatenation for a
message with all fields missing would be "||" but the code hashes
"|False|". -/
theorem c10_counterexample :
    contentHashInput [] = "|False|" ∧ contentHashInputSpec [] = "||" ∧
    contentHashInput [] ≠ contentHashInputSpec [] :=
  ⟨rfl, rfl, by decide⟩

/-- C10 amended: the fingerprint is a deterministic, fixed-width (64 hex
characters) hash of the order-stable concatenation text|media-flag|author;
a missing text or author id contributes the empty string, while a missing
media-presence flag contributes "False", its Python default. -/
theorem c10_fingerprint (m1 m2 : PyDict)
    (ht : dictGet m1 "text" = dictGet m2 "text")
    (hm : dictGet m1 "has_media" = dictGet m2 "has_media")
    (hf : dictGet m1 "from_id" = dictGet m2 "from_id") :
    generate_content_hash m1 = generate_content_hash m2 ∧
    (∀ m : PyDict, (generate_content_hash m).length = 64) ∧
    (∀ m : PyDict, contentHashInput m =
      hashPartText m ++ "|" ++ hashPartMedia m ++ "|" ++ hashPartFrom m) ∧
    (∀ m : PyDict, dictGet m "text" = none → hashPartText m = "") ∧
    (∀ m : PyDict, dictGet m "from_id" = none → hashPartFrom m = "") ∧
    (∀ m : PyDict, dictGet m "has_media" = none → hashPartMedia m = "False") := by
  refine ⟨?_, fun m => sha256hex_length _, fun m => rfl, ?_, ?_, ?_⟩
  · unfold generate_content_hash contentHashInput hashPartText hashPartMedia
      hashPartFrom
    rw [ht, hm, hf]
  · intro m h
    unfold hashPartText
    rw [h]
    rfl
  · intro m h
    unfold hashPartFrom
    rw [h]
    rfl
  · intro m h
    unfold hashPartMedia
    rw [h]
    rfl

theorem c10_witness :
    dictGet [("text", PyVal.pstr "hi"), ("has_media", PyVal.pbool true),
        ("from_id", PyVal.pint 5)] "text" =
      dictGet [("text", PyVal.pstr "hi"), ("has_media", PyVal.pbool true),
        ("from_id", PyVal.pint 5), ("id", PyVal.pint 9)] "text" ∧
    dictGet [("text", PyVal.pstr "hi"), ("has_media", PyVal.pbool true),
        ("from_id", PyVal.pint 5)] "has_media" =
      dictGet [("text", PyVal.pstr "hi"), ("has_media", PyVal.pbool true),
        ("from_id", PyVal.pint 5), ("id", PyVal.pint 9)] "has_media" ∧
    dictGet [("text", PyVal.pstr "hi"), ("has_media", PyVal.pbool true),
        ("from_id", PyVal.pint 5)] "from_id" =
      dictGet [("text", PyVal.pstr "hi"), ("has_media", PyVal.pbool true),
        ("from_id", PyVal.pint 5), ("id", PyVal.pint 9)] "from_id" ∧
    (generate_content_hash [("text", PyVal.pstr "hi"),
        ("has_media", PyVal.pbool true), ("from_id", PyVal.pint 5)] =
      generate_content_hash [("text", PyVal.pstr "hi"),
        ("has_media", PyVal.pbool true), ("from_id", PyVal.pint 5),
        ("id", PyVal.pint 9)] ∧
      (∀ m : PyDict, (generate_content_hash m).length = 64) ∧
      (∀ m : PyDict, contentHashInput m =
        hashPartText m ++ "|" ++ hashPartMedia m ++ "|" ++ hashPartFrom m) ∧
      (∀ m : PyDict, dictGet m "text" = none → hashPartText m = "") ∧
      (∀ m : PyDict, dictGet m "from_id" = none → hashPartFrom m = "") ∧
      (∀ m : PyDict, dictGet m "has_media" = none →
        hashPartMedia m = "False")) :=
  ⟨rfl, rfl, rfl, c10_fingerprint _ _ rfl rfl rfl⟩

/-! ## Claim C1 -/

/-- C1 fails in the code: `process_new_message` never calls
`mark_as_processed`, so after a first successful admission the cache is
still empty, a second admission attempt with the same fingerprint is not
rejected by `is_duplicate`, and a second DeliveryRecord is created. -/
theorem c1_second_admission_not_rejected :
    let w0 : World := ⟨⟨[⟨1, 100, .user, true⟩, ⟨2, 200, .user, true⟩],
      [⟨1, 1, 2, .fwd, true⟩], [], 0⟩, [], QState.empty⟩
    let msg : PyDict := [("content_hash", .pstr "abc")]
    let w1 := process_new_message 24 1000 true w0 100 10 msg
    let w2 := process_new_message 24 1001 true w1 100 11 msg
    w1.db.logs.length = 1 ∧ w1.cache = [] ∧
    (is_duplicate 24 1001 true w1.cache msg).dup = false ∧
    w2.db.logs.length = 2 :=
  ⟨rfl, rfl, rfl, rfl⟩

/-! ## Claim C2 -/

/-- C2 fails in the code: a rate-limit signal is swallowed inside the
client wrapper (it returns None like any other failure), so the worker
takes the partial-failure path, marks the record FAILED, and never calls
`enqueue_flood_wait` — the record does not stay PROCESSING and the
flood-wait queue remains empty. -/
theorem c2_rate_limit_marks_failed :
    let log0 : MessageLog := ⟨0, 1, 10, [2], .pending, 0, none, none, some 5, none⟩
    let item : PyDict := [("message_log_id", .pint 0),
      ("mappings", .plist [.pdict [("dest_channel_id", .pint 2),
        ("mode", .pstr "forward"), ("source_access", .pstr "user"),
        ("dest_access", .pstr "user")]])]
    let w := process_queued_message 6 (fun _ => .floodWait 30)
      ⟨⟨[], [], [log0], 1⟩, [], QState.empty⟩ item
    w.db.logs.map MessageLog.status = [.failed] ∧
    w.db.logs.map MessageLog.last_error =
      [some "Partial success - some destinations failed"] ∧
    w.q.floodZ = [] ∧ w.q.retryZ = [] ∧ w.q.mainList = [] :=
  ⟨rfl, rfl, rfl, rfl, rfl⟩

/-! ## Claim C4 -/

/-- C4: `enqueue_message` overwrites the item's `attempts` to 0, its
`priority` to the supplied priority and its `enqueued_at` to the current
time, leaving every other key unchanged; consequently an item the retry
sweeper moves back to the main queue has the attempt count accumulated by
`enqueue_retry` reset to 0. -/
theorem c4_enqueue_overwrites (now : Nat) (p : Int) (msg : PyDict) (k : String)
    (hk1 : k ≠ "enqueued_at") (hk2 : k ≠ "priority") (hk3 : k ≠ "attempts") :
    dictGet (stampEnqueue now p msg) "attempts" = some (.pint 0) ∧
    dictGet (stampEnqueue now p msg) "priority" = some (.pint p) ∧
    dictGet (stampEnqueue now p msg) "enqueued_at" = some (.pstr (iso now)) ∧
    dictGet (stampEnqueue now p msg) k = dictGet msg k ∧
    (∀ (tE tS delay : Nat) (s : QState), s.retryZ = [] → tE + delay ≤ tS →
      (process_retry_queue_step tS
          (enqueue_retry tE msg delay s)).mainList.head? =
        some (stampEnqueue tS 0 (stampRetry tE delay msg)) ∧
      dictGet (stampRetry tE delay msg) "attempts" =
        some (.pint (dictGetInt msg "attempts" 0 + 1)) ∧
      dictGet (stampEnqueue tS 0 (stampRetry tE delay msg)) "attempts" =
        some (.pint 0)) := by
  refine ⟨dictGet_dictSet_self _ _ _, ?_, ?_, ?_, ?_⟩
  · unfold stampEnqueue
    rw [dictGet_dictSet_ne _ _ _ _ (by decide)]
    exact dictGet_dictSet_self _ _ _
  · unfold stampEnqueue
    rw [dictGet_dictSet_ne _ _ _ _ (by decide),
        dictGet_dictSet_ne _ _ _ _ (by decide)]
    exact dictGet_dictSet_self _ _ _
  · unfold stampEnqueue
    rw [dictGet_dictSet_ne _ _ _ _ hk3, dictGet_dictSet_ne _ _ _ _ hk2,
        dictGet_dictSet_ne _ _ _ _ hk1]
  · intro tE tS delay s hs hle
    refine ⟨?_, ?_, dictGet_dictSet_self _ _ _⟩
    · obtain ⟨ml, pz, rz, fz, fl⟩ := s
      simp only at hs
      subst hs
      have hA : ((0 : Int) ≤ ((tE : Int) + (delay : Int))) := by positivity
      have hB : (((tE : Int) + (delay : Int)) ≤ (tS : Int)) := by
        exact_mod_cast hle
      simp [process_retry_queue_step, enqueue_retry, zadd, zrangebyscore,
        zsort, zsortIns, retryMove, enqueue_message, zrem, hA, hB]
    · unfold stampRetry
      rw [dictGet_dictSet_ne _ _ _ _ (by decide)]
      exact dictGet_dictSet_self _ _ _

theorem c4_witness :
    ("x" : String) ≠ "enqueued_at" ∧ ("x" : String) ≠ "priority" ∧
    ("x" : String) ≠ "attempts" ∧
    dictGet (stampEnqueue 100 0 [("x", PyVal.pint 7)]) "attempts" =
      some (.pint 0) ∧
    dictGet (stampEnqueue 100 0 [("x", PyVal.pint 7)]) "priority" =
      some (.pint 0) ∧
    dictGet (stampEnqueue 100 0 [("x", PyVal.pint 7)]) "enqueued_at" =
      some (.pstr (iso 100)) ∧
    dictGet (stampEnqueue 100 0 [("x", PyVal.pint 7)]) "x" =
      dictGet [("x", PyVal.pint 7)] "x" ∧
    QState.empty.retryZ = [] ∧ 5 + 30 ≤ 40 ∧
    (process_retry_queue_step 40
        (enqueue_retry 5 [("x", PyVal.pint 7)] 30 QState.empty)).mainList.head? =
      some (stampEnqueue 40 0 (stampRetry 5 30 [("x", PyVal.pint 7)])) ∧
    dictGet (stampRetry 5 30 [("x", PyVal.pint 7)]) "attempts" =
      some (.pint (dictGetInt [("x", PyVal.pint 7)] "attempts" 0 + 1)) ∧
    dictGet (stampEnqueue 40 0 (stampRetry 5 30 [("x", PyVal.pint 7)]))
        "attempts" = some (.pint 0) := by
  have h := c4_enqueue_overwrites 100 0 [("x", PyVal.pint 7)] "x"
    (by decide) (by decide) (by decide)
  have h5 := h.2.2.2.2 5 40 30 QState.empty rfl (by omega)
  exact ⟨by decide, by decide, by decide, h.1, h.2.1, h.2.2.1, h.2.2.2.1,
    rfl, by omega, h5.1, h5.2.1, h5.2.2⟩


/-! ## Claim C7 -/

/-- C7: an item placed in the retry queue with ready-at `now + delay` is
never moved to the main queue before its ready-at time: the sweeper
iteration keeps every entry scoring after the current time, enqueues into
the main queue only entries whose score lies in `[0, now]`, removes each
moved entry from the retry queue, and `enqueue_retry` schedules the entry
at score `now + delay`. -/
theorem c7_retry_ready_gate (t : Nat) (s : QState)
    (hnd : (s.retryZ.map (fun e => dumpsD e.1)).Nodup) :
    (∀ e ∈ s.retryZ, (t : Int) < e.2 →
       e ∈ (process_retry_queue_step t s).retryZ) ∧
    (∀ m ∈ (process_retry_queue_step t s).mainList, m ∈ s.mainList ∨
       ∃ e ∈ s.retryZ, 0 ≤ e.2 ∧ e.2 ≤ (t : Int) ∧
         m = stampEnqueue t 0 e.1) ∧
    (∀ e ∈ s.retryZ, 0 ≤ e.2 → e.2 ≤ (t : Int) →
       ∀ e' ∈ (process_retry_queue_step t s).retryZ,
         dumpsD e'.1 ≠ dumpsD e.1) ∧
    (∀ (tE delay : Nat) (msg : PyDict) (s0 : QState),
       (stampRetry tE delay msg, ((tE : Int) + (delay : Int))) ∈
         (enqueue_retry tE msg delay s0).retryZ) := by
  refine ⟨?_, ?_, ?_, ?_⟩
  · intro e he hlt
    refine foldl_retryMove_mem_retryZ t _ s e he ?_
    intro e0 h0 heq
    obtain ⟨h0m, -, h0le⟩ := mem_zrangebyscore.mp h0
    have : e0 = e :=
      List.inj_on_of_nodup_map hnd h0m he heq
    subst this
    exact absurd h0le (not_le.mpr hlt)
  · intro m hm
    rcases foldl_retryMove_mainList t _ s m hm with h | ⟨e, he, hm'⟩
    · exact .inl h
    · obtain ⟨hem, h0, hle⟩ := mem_zrangebyscore.mp he
      exact .inr ⟨e, hem, h0, hle, hm'⟩
  · intro e he h0 hle e' he' heq
    have hready : e ∈ zrangebyscore s.retryZ 0 t :=
      mem_zrangebyscore.mpr ⟨he, h0, hle⟩
    obtain ⟨l1, l2, hsplit⟩ := List.append_of_mem hready
    rw [process_retry_queue_step, hsplit, List.foldl_append,
      List.foldl_cons] at he'
    have he'' : e' ∈ (retryMove t (l1.foldl (retryMove t) s) e).retryZ :=
      (foldl_retryMove_retryZ_sublist t l2 _).subset he'
    rw [retryMove_retryZ] at he''
    have hnd1 : (((l1.foldl (retryMove t) s).retryZ.map
        (fun e => dumpsD e.1)).Nodup) :=
      hnd.sublist ((foldl_retryMove_retryZ_sublist t l1 s).map _)
    exact zrem_not_mem_member hnd1 e' he'' heq
  · intro tE delay msg s0
    exact zadd_mem _ _ _

theorem c7_witness :
    ((([(([("k", PyVal.pint 1)] : PyDict), (5 : Int))] : List ZEntry).map
        (fun e => dumpsD e.1)).Nodup) ∧
    ((∀ e ∈ ([(([("k", PyVal.pint 1)] : PyDict), (5 : Int))] : List ZEntry),
        ((3 : Nat) : Int) < e.2 →
        e ∈ (process_retry_queue_step 3
          ⟨[], [], [(([("k", PyVal.pint 1)] : PyDict), (5 : Int))], [], []⟩).retryZ) ∧
      (∀ m ∈ (process_retry_queue_step 3
          ⟨[], [], [(([("k", PyVal.pint 1)] : PyDict), (5 : Int))], [], []⟩).mainList,
        m ∈ ([] : List PyDict) ∨
        ∃ e ∈ ([(([("k", PyVal.pint 1)] : PyDict), (5 : Int))] : List ZEntry),
          0 ≤ e.2 ∧ e.2 ≤ ((3 : Nat) : Int) ∧ m = stampEnqueue 3 0 e.1) ∧
      (∀ e ∈ ([(([("k", PyVal.pint 1)] : PyDict), (5 : Int))] : List ZEntry),
        0 ≤ e.2 → e.2 ≤ ((3 : Nat) : Int) →
        ∀ e' ∈ (process_retry_queue_step 3
          ⟨[], [], [(([("k", PyVal.pint 1)] : PyDict), (5 : Int))], [], []⟩).retryZ,
          dumpsD e'.1 ≠ dumpsD e.1) ∧
      (∀ (tE delay : Nat) (msg : PyDict) (s0 : QState),
        (stampRetry tE delay msg, ((tE : Int) + (delay : Int))) ∈
          (enqueue_retry tE msg delay s0).retryZ)) :=
  ⟨by decide,
   c7_retry_ready_gate 3
     ⟨[], [], [(([("k", PyVal.pint 1)] : PyDict), (5 : Int))], [], []⟩
     (by decide)⟩


/-- C5 amended: FIFO order among equal-priority items holds for priority-0
items, which flow through the plain list queue; items sharing a positive
priority land in the sorted set instead, where dequeue returns the entry
with the lexicographically greatest serialized JSON first, which need not
be the enqueue order. -/
theorem c5_fifo_amended :
    (∀ (a b : PyDict) (t0 t1 : Nat) (s : QState), s.prioZ = [] →
      s.mainList = [] →
      (dequeue_message (enqueue_message t1 b 0 (enqueue_message t0 a 0 s))).1 =
        some (stampEnqueue t0 0 a) ∧
      (dequeue_message (dequeue_message
          (enqueue_message t1 b 0 (enqueue_message t0 a 0 s))).2).1 =
        some (stampEnqueue t1 0 b)) ∧
    (∀ (a b : PyDict) (p : Int) (t0 t1 : Nat) (s : QState), s.prioZ = [] →
      0 < p →
      strLtB (dumpsD (stampEnqueue t0 p a)) (dumpsD (stampEnqueue t1 p b)) =
        true →
      (dequeue_message (enqueue_message t1 b p (enqueue_message t0 a p s))).1 =
        some (stampEnqueue t1 p b)) := by
  constructor
  · intro a b t0 t1 s hp hm
    obtain ⟨ml, pz, rz, fz, fl⟩ := s
    simp only at hp hm
    subst hp
    subst hm
    exact ⟨rfl, rfl⟩
  · intro a b p t0 t1 s hpz hp hlex
    obtain ⟨ml, pz, rz, fz, fl⟩ := s
    simp only at hpz
    subst hpz
    have hne : (dumpsD (stampEnqueue t0 p a) ==
        dumpsD (stampEnqueue t1 p b)) = false :=
      beq_eq_false_iff_ne.mpr (strLtB_ne hlex)
    simp [enqueue_message, if_pos hp, zadd, hne, dequeue_message, zpopmax,
      entryMax, entryLtB, hlex, lt_irrefl]


theorem c5_witness :
    QState.empty.prioZ = [] ∧ QState.empty.mainList = [] ∧
    ((dequeue_message (enqueue_message 1 [("message_log_id", PyVal.pint 2)] 0
        (enqueue_message 0 [("message_log_id", PyVal.pint 1)] 0
          QState.empty))).1 =
      some (stampEnqueue 0 0 [("message_log_id", PyVal.pint 1)]) ∧
    (dequeue_message (dequeue_message
        (enqueue_message 1 [("message_log_id", PyVal.pint 2)] 0
          (enqueue_message 0 [("message_log_id", PyVal.pint 1)] 0
            QState.empty))).2).1 =
      some (stampEnqueue 1 0 [("message_log_id", PyVal.pint 2)])) ∧
    (0 : Int) < 5 ∧
    strLtB (dumpsD (stampEnqueue 0 5 [("message_log_id", PyVal.pint 1)]))
      (dumpsD (stampEnqueue 1 5 [("message_log_id", PyVal.pint 2)])) = true ∧
    (dequeue_message (enqueue_message 1 [("message_log_id", PyVal.pint 2)] 5
        (enqueue_message 0 [("message_log_id", PyVal.pint 1)] 5
          QState.empty))).1 =
      some (stampEnqueue 1 5 [("message_log_id", PyVal.pint 2)]) :=
  ⟨rfl, rfl,
   c5_fifo_amended.1 [("message_log_id", PyVal.pint 1)]
     [("message_log_id", PyVal.pint 2)] 0 1 QState.empty rfl rfl,
   by decide, by decide,
   c5_fifo_amended.2 [("message_log_id", PyVal.pint 1)]
     [("message_log_id", PyVal.pint 2)] 5 0 1 QState.empty rfl (by decide)
     (by decide)⟩


/-! ## Claim C9 -/

theorem all_append_singleton (p : MessageLog → Bool) (ls : List MessageLog)
    (l : MessageLog) (h1 : ls.all p = true) (h2 : p l = true) :
    (ls ++ [l]).all p = true := by
  induction ls with
  | nil => simpa using h2
  | cons a as ih =>
    simp only [List.all_cons, Bool.and_eq_true] at h1
    simp only [List.cons_append, List.all_cons, Bool.and_eq_true]
    exact ⟨h1.1, ih h1.2⟩

theorem logsPairUnique_append_singleton_of (ls : List MessageLog)
    (l : MessageLog) (h1 : logsPairUnique ls = true)
    (h2 : ls.all (fun l2 =>
      !(l2.source_channel_id == l.source_channel_id &&
        l2.source_message_id == l.source_message_id)) = true) :
    logsPairUnique (ls ++ [l]) = true := by
  induction ls with
  | nil => rfl
  | cons a as ih =>
    simp only [logsPairUnique, Bool.and_eq_true, List.all_cons] at h1 h2
    simp only [List.cons_append, logsPairUnique, Bool.and_eq_true]
    exact ⟨all_append_singleton _ _ _ h1.1 h2.1, ih h1.2 h2.2⟩

theorem logsPairUnique_map (g : MessageLog → MessageLog)
    (hg : ∀ l, (g l).source_channel_id = l.source_channel_id ∧
      (g l).source_message_id = l.source_message_id)
    (ls : List MessageLog) (h : logsPairUnique ls = true) :
    logsPairUnique (ls.map g) = true := by
  induction ls with
  | nil => rfl
  | cons a as ih =>
    simp only [List.map_cons, logsPairUnique, Bool.and_eq_true, List.all_map,
      List.all_eq_true, Function.comp] at h ⊢
    obtain ⟨h1, h2⟩ := h
    refine ⟨?_, ih h2⟩
    intro l2 hl2
    rw [(hg a).1, (hg a).2, (hg l2).1, (hg l2).2]
    exact h1 l2 hl2

theorem create_message_log_pair_preserved (db : DbState) (tid mid : Int)
    (dest : List Nat) (now : Nat) (log : MessageLog) (db1 : DbState)
    (h : logsPairUnique db.logs = true)
    (hc : create_message_log db tid mid dest now = .ok (log, db1)) :
    logsPairUnique db1.logs = true := by
  unfold create_message_log at hc
  cases hch : channelByTid db tid with
  | none => rw [hch] at hc; cases hc
  | some c =>
    rw [hch] at hc
    dsimp only at hc
    by_cases hdup : db.logs.any (fun l =>
        l.source_channel_id == c.id && l.source_message_id == mid) = true
    · rw [if_pos hdup] at hc; cases hc
    · rw [if_neg hdup] at hc
      injection hc with hc'
      injection hc' with hlog hdb
      subst hdb
      refine logsPairUnique_append_singleton_of _ _ h ?_
      rw [Bool.not_eq_true, List.any_eq_false] at hdup
      rw [List.all_eq_true]
      intro l2 hl2
      have hx := hdup l2 hl2
      rw [Bool.not_eq_true] at hx
      rw [hx]
      rfl

/-- C9: at most one DeliveryRecord per (source endpoint, source message id)
pair: inserting an already-present pair fails the `unique_source_message`
constraint; a successful insert, every status update of the worker, and the
whole admission path preserve the pair-uniqueness invariant. -/
theorem c9_unique_source_message :
    (∀ (db : DbState) (tid mid : Int) (dest : List Nat) (now : Nat)
        (c : Channel),
      channelByTid db tid = some c →
      (∃ l ∈ db.logs, l.source_channel_id = c.id ∧
        l.source_message_id = mid) →
      create_message_log db tid mid dest now =
        .error "UniqueViolation: unique_source_message") ∧
    (∀ (db : DbState) (tid mid : Int) (dest : List Nat) (now : Nat)
        (log : MessageLog) (db1 : DbState),
      logsPairUnique db.logs = true →
      create_message_log db tid mid dest now = .ok (log, db1) →
      logsPairUnique db1.logs = true) ∧
    (∀ (db : DbState) (logId : Nat) (f : MessageLog → MessageLog),
      (∀ l, (f l).source_channel_id = l.source_channel_id ∧
        (f l).source_message_id = l.source_message_id) →
      logsPairUnique db.logs = true →
      logsPairUnique (updateLog db logId f).logs = true) ∧
    (∀ (ttl now : Nat) (reach : Bool) (w : World) (scid mid : Int)
        (md : PyDict),
      logsPairUnique w.db.logs = true →
      logsPairUnique
        ((process_new_message ttl now reach w scid mid md).db.logs) = true) := by
  refine ⟨?_, ?_, ?_, ?_⟩
  · intro db tid mid dest now c hc hex
    obtain ⟨l, hl, h1, h2⟩ := hex
    have hany : (db.logs.any fun l =>
        l.source_channel_id == c.id && l.source_message_id == mid) = true := by
      rw [List.any_eq_true]
      exact ⟨l, hl, by simp [h1, h2]⟩
    unfold create_message_log
    rw [hc]
    dsimp only
    rw [if_pos hany]
  · intro db tid mid dest now log db1 h hc
    exact create_message_log_pair_preserved db tid mid dest now log db1 h hc
  · intro db logId f hf h
    refine logsPairUnique_map _ ?_ _ h
    intro l
    by_cases hid : (l.id == logId) = true
    · rw [if_pos hid]
      exact hf l
    · rw [if_neg hid]
      exact ⟨rfl, rfl⟩
  · intro ttl now reach w scid mid md h
    unfold process_new_message
    dsimp only
    split
    · exact h
    · split
      · exact h
      · split
        · exact h
        · next log db1 hc =>
          split
          · exact create_message_log_pair_preserved _ _ _ _ _ _ _ h hc
          · exact create_message_log_pair_preserved _ _ _ _ _ _ _ h hc


theorem c9_witness :
    let ch : Channel := ⟨1, 100, .user, true⟩
    let log9 : MessageLog := ⟨0, 1, 10, [2], .pending, 0, none, none, some 5,
      none⟩
    let log0 : MessageLog := ⟨0, 1, 10, [2], .pending, 0, none, none, some 7,
      none⟩
    let db9 : DbState := ⟨[ch], [], [log9], 1⟩
    let db0 : DbState := ⟨[ch], [], [], 0⟩
    channelByTid db9 100 = some ch ∧
    (∃ l ∈ db9.logs, l.source_channel_id = ch.id ∧
      l.source_message_id = 10) ∧
    create_message_log db9 100 10 [2] 7 =
      .error "UniqueViolation: unique_source_message" ∧
    logsPairUnique db0.logs = true ∧
    create_message_log db0 100 10 [2] 7 = .ok (log0, ⟨[ch], [], [log0], 1⟩) ∧
    logsPairUnique [log0] = true ∧
    (∀ l : MessageLog,
      ({ l with status := MessageStatus.success } : MessageLog).source_channel_id =
        l.source_channel_id ∧
      ({ l with status := MessageStatus.success } : MessageLog).source_message_id =
        l.source_message_id) ∧
    logsPairUnique db9.logs = true ∧
    logsPairUnique (updateLog db9 0
      (fun l => { l with status := MessageStatus.success })).logs = true ∧
    logsPairUnique ((process_new_message 24 7 true ⟨db0, [], QState.empty⟩
      100 10 [("content_hash", PyVal.pstr "abc")]).db.logs) = true :=
  ⟨rfl,
   ⟨⟨0, 1, 10, [2], .pending, 0, none, none, some 5, none⟩,
     List.mem_cons_self _ _, rfl, rfl⟩,
   c9_unique_source_message.1 _ 100 10 [2] 7 ⟨1, 100, .user, true⟩ rfl
     ⟨⟨0, 1, 10, [2], .pending, 0, none, none, some 5, none⟩,
       List.mem_cons_self _ _, rfl, rfl⟩,
   rfl, rfl,
   c9_unique_source_message.2.1 ⟨[⟨1, 100, .user, true⟩], [], [], 0⟩ 100 10
     [2] 7 ⟨0, 1, 10, [2], .pending, 0, none, none, some 7, none⟩
     ⟨[⟨1, 100, .user, true⟩], [],
       [⟨0, 1, 10, [2], .pending, 0, none, none, some 7, none⟩], 1⟩ rfl rfl,
   fun l => ⟨rfl, rfl⟩,
   rfl,
   c9_unique_source_message.2.2.1
     ⟨[⟨1, 100, .user, true⟩], [],
       [⟨0, 1, 10, [2], .pending, 0, none, none, some 5, none⟩], 1⟩ 0
     (fun l => { l with status := MessageStatus.success })
     (fun l => ⟨rfl, rfl⟩) rfl,
   c9_unique_source_message.2.2.2 24 7 true
     ⟨⟨[⟨1, 100, .user, true⟩], [], [], 0⟩, [], QState.empty⟩ 100 10
     [("content_hash", PyVal.pstr "abc")] rfl⟩

end MSC
